import Mathlib

/-!
Verification of the AutoTest repository: a shallow embedding of
`playwright_langgraph_agent.py` and `api_app.py` in Lean 4.

Strings are modelled as `List Char` internally; pure helpers (`slugify`,
`build_request_id`, `extract_fenced_block`, `normalize_mcp_config`, path
derivation) are translated directly.  The effectful `run_workflow` is
modelled as a function of an environment oracle (model responses, tool
listing outcomes, configuration file content, clock) returning an event
trace together with a result or a propagated Python exception.
-/

namespace AutoTest

/-- ASCII whitespace recognised by Python `str.strip()`:
space, tab, newline, carriage return, vertical tab, form feed. -/
def pyIsSpace (c : Char) : Bool :=
  c = ' ' || c = '\t' || c = '\n' || c = '\r' || c = Char.ofNat 11 || c = Char.ofNat 12

/-- Python `str.strip()` on a character list: drop whitespace from both ends. -/
def pyStrip (l : List Char) : List Char :=
  ((l.dropWhile pyIsSpace).reverse.dropWhile pyIsSpace).reverse

/-- Python `str.lower()` on one character (ASCII range, as exercised by the code). -/
def pyToLower (c : Char) : Char :=
  if 65 ≤ c.toNat ∧ c.toNat ≤ 90 then Char.ofNat (c.toNat + 32) else c

/-- Python `str.upper()` on one character (ASCII range, as exercised by the code). -/
def pyToUpper (c : Char) : Char :=
  if 97 ≤ c.toNat ∧ c.toNat ≤ 122 then Char.ofNat (c.toNat - 32) else c

/-- Python `str.upper()` on a character list. -/
def pyUpper (l : List Char) : List Char := l.map pyToUpper

/-- The character class `[a-zA-Z0-9]` of the `slugify` regex. -/
def isAsciiAlnum (c : Char) : Bool :=
  (48 ≤ c.toNat ∧ c.toNat ≤ 57) || (65 ≤ c.toNat ∧ c.toNat ≤ 90) ||
    (97 ≤ c.toNat ∧ c.toNat ≤ 122)

/-- Fuel-driven worker for `tokenize`; any fuel at least the list length
yields the maximal alphanumeric runs. -/
def tokenizeFuel : Nat → List Char → List (List Char)
  | 0, _ => []
  | _ + 1, [] => []
  | fuel + 1, c :: cs =>
    if isAsciiAlnum c then
      (c :: cs.takeWhile isAsciiAlnum) :: tokenizeFuel fuel (cs.dropWhile isAsciiAlnum)
    else
      tokenizeFuel fuel cs

/-- `re.findall(r"[a-zA-Z0-9]+", ·)`: the maximal runs of alphanumeric
characters, in order. -/
def tokenize (l : List Char) : List (List Char) :=
  tokenizeFuel l.length l

/-- `"-".join(...)` on character lists. -/
def joinHyphen : List (List Char) → List Char
  | [] => []
  | [t] => t
  | t :: ts => t ++ '-' :: joinHyphen ts

/-- `slugify`: lower-case the text, take the first 8 alphanumeric tokens,
hyphen-join them; fall back to `"generated-test"` when no token exists. -/
def slugify (text : List Char) : List Char :=
  let tokens := tokenize (text.map pyToLower)
  if tokens.isEmpty then "generated-test".toList
  else joinHyphen (tokens.take 8)

/-- The decimal digit character for `n < 10`. -/
def digitChar (n : Nat) : Char := Char.ofNat (48 + n)

/-- Fuel-driven worker for `natDigitsRev`; any fuel at least `n` suffices. -/
def natDigitsRevFuel : Nat → Nat → List Char
  | 0, _ => []
  | fuel + 1, n =>
    if n = 0 then [] else digitChar (n % 10) :: natDigitsRevFuel fuel (n / 10)

/-- The decimal digits of `n`, least significant first (empty for 0). -/
def natDigitsRev (n : Nat) : List Char :=
  natDigitsRevFuel n n

/-- Decimal rendering of a natural number (as `str(n)` / `%d`). -/
def natToChars (n : Nat) : List Char :=
  if n = 0 then ['0'] else (natDigitsRev n).reverse

/-- Zero-padded decimal rendering of width `w` (as `strftime` field padding). -/
def padNum (w n : Nat) : List Char :=
  List.replicate (w - (natToChars n).length) '0' ++ natToChars n

/-- A wall-clock instant as used by `datetime.now()`. -/
structure Timestamp where
  year : Nat
  month : Nat
  day : Nat
  hour : Nat
  minute : Nat
  second : Nat
  microsecond : Nat
deriving DecidableEq, Repr

/-- Field bounds satisfied by every `datetime` value. -/
def Timestamp.Valid (t : Timestamp) : Prop :=
  t.year < 10000 ∧ t.month < 100 ∧ t.day < 100 ∧ t.hour < 100 ∧
    t.minute < 100 ∧ t.second < 100 ∧ t.microsecond < 1000000

instance (t : Timestamp) : Decidable t.Valid := by
  unfold Timestamp.Valid; infer_instance

/-- `datetime.now().strftime("%Y%m%d-%H%M%S-%f")`. -/
def strftimeId (t : Timestamp) : List Char :=
  padNum 4 t.year ++ padNum 2 t.month ++ padNum 2 t.day ++ '-' ::
    (padNum 2 t.hour ++ padNum 2 t.minute ++ padNum 2 t.second ++ '-' ::
      padNum 6 t.microsecond)

/-- `build_request_id`: slug of the request plus the formatted timestamp. -/
def build_request_id (spec : List Char) (now : Timestamp) : List Char :=
  slugify spec ++ '-' :: strftimeId now

/-- `default_output_path`: `tests/{name}.spec.ts` or `tests/{name}.spec.py`. -/
def default_output_path (spec : List Char) (test_language : List Char)
    (request_id : Option (List Char)) : List Char :=
  let ext : List Char := if test_language = "ts".toList then "spec.ts".toList else "spec.py".toList
  let name := request_id.getD (slugify spec)
  "tests/".toList ++ name ++ '.' :: ext

/-- `plan_output_path`: `specs/{request_id}-plan.md`. -/
def plan_output_path (request_id : List Char) : List Char :=
  "specs/".toList ++ request_id ++ "-plan.md".toList

/-- The backtick character (U+0060). -/
def tick : Char := Char.ofNat 96

/-- The character class `[a-zA-Z0-9_+-]` of the fence opening tag. -/
def isTagChar (c : Char) : Bool :=
  isAsciiAlnum c || c = '_' || c = '+' || c = '-'

/-- Split a character list at the first occurrence of a triple backtick:
`some (pre, post)` with the input equal to `pre ++ tick :: tick :: tick :: post`,
`none` when no triple backtick occurs.  This is the lazy `(.*?)` matching
up to the closing fence. -/
def splitAtFence : List Char → Option (List Char × List Char)
  | [] => none
  | c :: cs =>
    if c = tick ∧ cs.take 2 = [tick, tick] then
      some ([], cs.drop 2)
    else
      match splitAtFence cs with
      | none => none
      | some (pre, post) => some (c :: pre, post)

/-- Attempt the regex `` ```(?:[a-zA-Z0-9_+-]+)?\n(.*?)``` `` (DOTALL)
anchored at the start of the list, returning the captured interior.
Backtracking over the optional tag reduces to: skip the maximal run of tag
characters after the opening fence and require a newline there. -/
def fenceMatchAt (l : List Char) : Option (List Char) :=
  if l.take 3 = [tick, tick, tick] then
    match (l.drop 3).dropWhile isTagChar with
    | c :: body => if c = '\n' then (splitAtFence body).map (·.1) else none
    | [] => none
  else none

/-- `re.search` of the fence pattern: try every start position left to right. -/
def fenceSearch : List Char → Option (List Char)
  | [] => none
  | c :: cs =>
    match fenceMatchAt (c :: cs) with
    | some r => some r
    | none => fenceSearch cs

/-- `extract_fenced_block`: the stripped interior of the first fenced block,
or the stripped whole text when no fence matches. -/
def extract_fenced_block (text : List Char) : List Char :=
  match fenceSearch text with
  | some interior => pyStrip interior
  | none => pyStrip text

/-- A JSON value as it occurs in the MCP server configuration:
a string or an array of strings (the `args` list). -/
inductive JValue where
  | str (s : List Char)
  | arr (xs : List (List Char))
deriving DecidableEq, Repr

/-- A JSON object, as a key-value list. -/
abbrev JDict := List (List Char × JValue)

/-- `dict.get(key)`: the value of the first matching key, if any. -/
def jget (d : JDict) (k : List Char) : Option JValue :=
  (d.find? (fun p => p.1 = k)).map (·.2)

/-- Rendering of a `JValue` inside an f-string (exercised only on strings). -/
def jvalueStr : JValue → List Char
  | .str s => s
  | .arr _ => "<list>".toList

/-- The built-in default MCP server entry used when the configuration file or
the named entry is missing or empty. -/
def defaultServerConfig : JDict :=
  [("type".toList, .str "stdio".toList),
   ("command".toList, .str "npx".toList),
   ("args".toList, .arr ["playwright".toList, "run-test-mcp-server".toList])]

/-- `load_mcp_server_config`: look the server name up in the (parsed) file's
`servers` table; a missing file, a missing entry, or a falsy (empty) entry
yields the built-in default. -/
def load_mcp_server_config (file : Option (List (List Char × JDict)))
    (server_name : List Char) : JDict :=
  match file with
  | some servers =>
    match (servers.find? (fun p => p.1 = server_name)).map (·.2) with
    | some server => if server.isEmpty then defaultServerConfig else server
    | none => defaultServerConfig
  | none => defaultServerConfig

/-- A propagated Python exception. -/
inductive PyErr where
  | valueError (msg : List Char)
  | keyError (key : List Char)
  | other (msg : List Char)
deriving DecidableEq, Repr

/-- `str(exc)` as used for the HTTP error detail. -/
def pyErrStr : PyErr → List Char
  | .valueError m => m
  | .keyError k => '\'' :: k ++ ['\'']
  | .other m => m

/-- `normalize_mcp_config`: default the type to `stdio`; stdio entries get
default command `npx` and empty args; HTTP-family entries require a `url`
(a missing one is a `KeyError`); any other type raises `ValueError`. -/
def normalize_mcp_config (server_config : JDict) : Except PyErr JDict :=
  let server_type := (jget server_config "type".toList).getD (.str "stdio".toList)
  if server_type = .str "stdio".toList then
    .ok [("command".toList, (jget server_config "command".toList).getD (.str "npx".toList)),
         ("args".toList, (jget server_config "args".toList).getD (.arr [])),
         ("transport".toList, .str "stdio".toList)]
  else if server_type = .str "streamable_http".toList ∨ server_type = .str "http".toList then
    match jget server_config "url".toList with
    | some u => .ok [("url".toList, u), ("transport".toList, .str "streamable_http".toList)]
    | none => .error (.keyError "url".toList)
  else
    .error (.valueError ("Unsupported MCP server type: ".toList ++ jvalueStr server_type))

/-- The three agent-loop phases. -/
inductive Phase where
  | plan
  | generate
  | heal
deriving DecidableEq, Repr

/-- Observable effects of one `run_workflow` invocation, in program order. -/
inductive Event where
  /-- `path.parent.mkdir(parents=True, exist_ok=True)` for the given path. -/
  | mkdirParent (ofPath : List Char)
  /-- `MultiServerMCPClient({name: normalized_config})` construction. -/
  | clientConstruct (servers : List (List Char × JDict))
  /-- `client.get_tools()`. -/
  | getTools
  /-- `graph.ainvoke(...)` for one phase. -/
  | graphInvoke (phase : Phase)
  /-- `close_client(client)`. -/
  | clientClose
  /-- `path.write_text(content, encoding="utf-8")`. -/
  | writeFile (path : List Char) (content : List Char)
deriving DecidableEq, Repr

/-- The environment oracle: the configuration file content, the clock, and
the outcome of each externally-effected step (tool listing, agent-loop final
message content per phase), each able to raise. -/
structure Env where
  mcpFile : Option (List (List Char × JDict))
  now : Timestamp
  getTools1 : Except PyErr Unit
  planResponse : Except PyErr (List Char)
  genResponse : Except PyErr (List Char)
  getTools2 : Except PyErr Unit
  healResponse : Except PyErr (List Char)

/-- The tuple returned by `run_workflow`. -/
structure WResult where
  plan_path : List Char
  plan_text : List Char
  test_path : List Char
  test_code : List Char
  healed : Bool
deriving DecidableEq, Repr

/-- Arguments of `run_workflow` (the `mcp_config` path selects `Env.mcpFile`). -/
structure WArgs where
  spec : List Char
  start_url : Option (List Char)
  output_path : Option (List Char)
  test_language : List Char
  model_name : List Char
  mcp_server : List Char

/-- `run_workflow`, translated statement by statement: returns the event
trace together with the result tuple or the propagated exception. -/
def run_workflow (a : WArgs) (env : Env) : List Event × Except PyErr WResult :=
  let spec := pyStrip a.spec
  let request_id := build_request_id spec env.now
  let plan_path := plan_output_path request_id
  let output_path := a.output_path.getD (default_output_path spec a.test_language (some request_id))
  let ev0 := [Event.mkdirParent plan_path, Event.mkdirParent output_path]
  let server_config := load_mcp_server_config env.mcpFile a.mcp_server
  match normalize_mcp_config server_config with
  | .error e => (ev0, .error e)
  | .ok norm =>
    let ev1 := ev0 ++ [Event.clientConstruct [(a.mcp_server, norm)], Event.getTools]
    match env.getTools1 with
    | .error e => (ev1 ++ [Event.clientClose], .error e)
    | .ok _ =>
      let ev2 := ev1 ++ [Event.graphInvoke .plan]
      match env.planResponse with
      | .error e => (ev2 ++ [Event.clientClose], .error e)
      | .ok planContent =>
        let plan_text0 := extract_fenced_block planContent
        let plan_text :=
          if plan_text0 = [] then
            "# Plan\n\nRequest:\n".toList ++ spec ++ ['\n']
          else plan_text0
        let ev3 := ev2 ++ [Event.writeFile plan_path (plan_text ++ ['\n']),
          Event.graphInvoke .generate]
        match env.genResponse with
        | .error e => (ev3 ++ [Event.clientClose], .error e)
        | .ok genContent =>
          let ev4 := ev3 ++ [Event.clientClose]
          let test_code := extract_fenced_block genContent
          if test_code = [] then
            (ev4, .error (.valueError "No test code returned by generator.".toList))
          else
            let ev5 := ev4 ++ [Event.writeFile output_path (test_code ++ ['\n'])]
            match normalize_mcp_config (load_mcp_server_config env.mcpFile a.mcp_server) with
            | .error e => (ev5, .error e)
            | .ok norm2 =>
              let ev6 := ev5 ++ [Event.clientConstruct [(a.mcp_server, norm2)], Event.getTools]
              match env.getTools2 with
              | .error e => (ev6 ++ [Event.clientClose], .error e)
              | .ok _ =>
                let ev7 := ev6 ++ [Event.graphInvoke .heal]
                match env.healResponse with
                | .error e => (ev7 ++ [Event.clientClose], .error e)
                | .ok healContent =>
                  let ev8 := ev7 ++ [Event.clientClose]
                  let heal_text := pyStrip healContent
                  if pyUpper heal_text ≠ "NO_CHANGES".toList then
                    let healed_code := extract_fenced_block heal_text
                    if healed_code ≠ [] then
                      let healed := healed_code ≠ test_code
                      let ev9 := ev8 ++ [Event.writeFile output_path (healed_code ++ ['\n'])]
                      (ev9, .ok ⟨plan_path, plan_text, output_path, healed_code, healed⟩)
                    else
                      (ev8, .ok ⟨plan_path, plan_text, output_path, test_code, false⟩)
                  else
                    (ev8, .ok ⟨plan_path, plan_text, output_path, test_code, false⟩)

/-- The content a path holds after the trace ran: the payload of the last
`writeFile` to it, if any. -/
def finalWrite (evs : List Event) (p : List Char) : Option (List Char) :=
  evs.foldl
    (fun acc e =>
      match e with
      | .writeFile q c => if q = p then some c else acc
      | _ => acc)
    none

/-- `run_workflow_sync`: the synchronous wrapper returns the same tuple. -/
def run_workflow_sync (a : WArgs) (env : Env) : Except PyErr WResult :=
  (run_workflow a env).2

/-- The `/generate` request payload (`GenerateRequest`). -/
structure GenerateRequest where
  spec : List Char
  start_url : Option (List Char)
  output_path : Option (List Char)
  test_language : List Char
  model_name : List Char
  mcp_server : List Char

/-- The `/generate` success payload (`GenerateResponse`). -/
structure GenerateResponse where
  plan_path : List Char
  plan_text : List Char
  test_path : List Char
  test_code : List Char
  healed : Bool
deriving DecidableEq, Repr

/-- What the endpoint hands back to the HTTP layer: a response model or an
`HTTPException(status_code, detail)`. -/
inductive ApiOutcome where
  | ok (r : GenerateResponse)
  | httpError (status : Nat) (detail : List Char)
deriving DecidableEq, Repr

/-- `x or None` on an optional string field: an empty string becomes `None`. -/
def orNone (s : Option (List Char)) : Option (List Char) :=
  match s with
  | some [] => none
  | x => x

/-- `generate_tests`: run the workflow; wrap any exception in an
`HTTPException(500, str(exc))`, otherwise build the response model. -/
def generate_tests (payload : GenerateRequest) (env : Env) : ApiOutcome :=
  match run_workflow_sync
      ⟨payload.spec, orNone payload.start_url, orNone payload.output_path,
        payload.test_language, payload.model_name, payload.mcp_server⟩ env with
  | .error e => .httpError 500 (pyErrStr e)
  | .ok r => .ok ⟨r.plan_path, r.plan_text, r.test_path, r.test_code, r.healed⟩

instance {ε α : Type} [DecidableEq ε] [DecidableEq α] : DecidableEq (Except ε α) :=
  fun x y =>
    match x, y with
    | .error a, .error b =>
      if h : a = b then .isTrue (by rw [h]) else .isFalse (by simp [h])
    | .error _, .ok _ => .isFalse (fun hc => Except.noConfusion hc)
    | .ok _, .error _ => .isFalse (fun hc => Except.noConfusion hc)
    | .ok a, .ok b =>
      if h : a = b then .isTrue (by rw [h]) else .isFalse (by simp [h])

/-- An environment in which every external step succeeds, with the given
configuration file, clock and per-phase final message contents. -/
def okEnv (file : Option (List (List Char × JDict))) (now : Timestamp)
    (p g h : List Char) : Env :=
  ⟨file, now, .ok (), .ok p, .ok g, .ok (), .ok h⟩

/-- The numeric value of a decimal digit character (verification helper). -/
def digitVal (c : Char) : Nat := c.toNat - 48

/-- Decode a least-significant-first digit list (verification helper). -/
def decodeRev : List Char → Nat
  | [] => 0
  | c :: cs => digitVal c + 10 * decodeRev cs

/-- Decode a most-significant-first digit list (verification helper). -/
def decode (l : List Char) : Nat := decodeRev l.reverse

/-! ## Theorems -/

theorem toNat_ofNat_small (n : Nat) (h : n < 55296) : (Char.ofNat n).toNat = n := by
  have hv : n.isValidChar := Or.inl (by exact_mod_cast h)
  rw [Char.ofNat, dif_pos hv]
  rfl

/-- **C10**: a configuration record with no `type` key is treated as stdio:
normalization succeeds with transport `stdio`, the command defaulting to
`npx` and the args defaulting to `[]` when absent, both passed through when
present. -/
theorem c10_normalize_defaults_stdio (d : JDict)
    (h : jget d "type".toList = none) :
    ∃ r, normalize_mcp_config d = .ok r ∧
      jget r "transport".toList = some (.str "stdio".toList) ∧
      (jget d "command".toList = none →
        jget r "command".toList = some (.str "npx".toList)) ∧
      (∀ v, jget d "command".toList = some v → jget r "command".toList = some v) ∧
      (jget d "args".toList = none → jget r "args".toList = some (.arr [])) ∧
      (∀ v, jget d "args".toList = some v → jget r "args".toList = some v) := by
  refine ⟨[("command".toList, (jget d "command".toList).getD (.str "npx".toList)),
    ("args".toList, (jget d "args".toList).getD (.arr [])),
    ("transport".toList, .str "stdio".toList)], ?_, ?_, ?_, ?_, ?_, ?_⟩
  · unfold normalize_mcp_config
    rw [h]
    simp
  · rfl
  · intro hc
    rw [hc]
    rfl
  · intro v hc
    rw [hc]
    rfl
  · intro hc
    rw [hc]
    rfl
  · intro v hc
    rw [hc]
    rfl

/-- Witness for C10 at a concrete record lacking a `type` key. -/
theorem c10_normalize_defaults_stdio_witness :
    jget [("command".toList, JValue.str "c".toList)] "type".toList = none ∧
      (∃ r, normalize_mcp_config [("command".toList, JValue.str "c".toList)] = .ok r ∧
        jget r "transport".toList = some (.str "stdio".toList) ∧
        (jget [("command".toList, JValue.str "c".toList)] "command".toList = none →
          jget r "command".toList = some (.str "npx".toList)) ∧
        (∀ v, jget [("command".toList, JValue.str "c".toList)] "command".toList = some v →
          jget r "command".toList = some v) ∧
        (jget [("command".toList, JValue.str "c".toList)] "args".toList = none →
          jget r "args".toList = some (.arr [])) ∧
        (∀ v, jget [("command".toList, JValue.str "c".toList)] "args".toList = some v →
          jget r "args".toList = some v)) :=
  ⟨by decide, c10_normalize_defaults_stdio _ (by decide)⟩

/-- **C7**: an unsupported transport kind makes `run_workflow` fail with a
`ValueError` naming the kind, and the trace holds no client construction,
no tool listing and no agent-loop invocation. -/
theorem c7_unsupported_transport_fails_early (a : WArgs) (env : Env) (t : List Char)
    (hload : jget (load_mcp_server_config env.mcpFile a.mcp_server) "type".toList =
      some (.str t))
    (h1 : t ≠ "stdio".toList) (h2 : t ≠ "streamable_http".toList)
    (h3 : t ≠ "http".toList) :
    ∃ tr,
      run_workflow a env =
        (tr, .error (.valueError ("Unsupported MCP server type: ".toList ++ t))) ∧
      ∀ e ∈ tr, (∀ s, e ≠ Event.clientConstruct s) ∧ e ≠ Event.getTools ∧
        (∀ ph, e ≠ Event.graphInvoke ph) := by
  have hn : normalize_mcp_config (load_mcp_server_config env.mcpFile a.mcp_server) =
      .error (.valueError ("Unsupported MCP server type: ".toList ++ t)) := by
    unfold normalize_mcp_config
    rw [hload]
    simp only [Option.getD_some, JValue.str.injEq]
    rw [if_neg h1, if_neg (not_or.mpr ⟨h2, h3⟩)]
    rfl
  simp only [run_workflow, hn]
  refine ⟨_, rfl, ?_⟩
  intro e he
  simp at he
  rcases he with he | he <;> subst he <;> simp

/-- Witness for C7 at a concrete `grpc` configuration. -/
theorem c7_unsupported_transport_fails_early_witness :
    jget
        (load_mcp_server_config
          (some [("playwright-test".toList, [("type".toList, JValue.str "grpc".toList)])])
          "playwright-test".toList)
        "type".toList = some (.str "grpc".toList) ∧
      (∃ tr,
        run_workflow
            ⟨"x".toList, none, none, "ts".toList, "m".toList, "playwright-test".toList⟩
            ⟨some [("playwright-test".toList, [("type".toList, JValue.str "grpc".toList)])],
              ⟨2026, 10, 12, 3, 4, 5, 67⟩, .ok (), .ok "p".toList, .ok "g".toList,
              .ok (), .ok "h".toList⟩ =
          (tr, .error (.valueError ("Unsupported MCP server type: ".toList ++ "grpc".toList))) ∧
        ∀ e ∈ tr, (∀ s, e ≠ Event.clientConstruct s) ∧ e ≠ Event.getTools ∧
          (∀ ph, e ≠ Event.graphInvoke ph)) :=
  ⟨by decide,
    c7_unsupported_transport_fails_early _ _ _ (by decide) (by decide) (by decide) (by decide)⟩

/-- **C8**: when the workflow invocation raises, the `/generate` endpoint
returns a single HTTP 500 failure whose detail is `str` of the exception,
and no response record. -/
theorem c8_api_maps_exception_to_500 (payload : GenerateRequest) (env : Env) (e : PyErr)
    (h : run_workflow_sync
        ⟨payload.spec, orNone payload.start_url, orNone payload.output_path,
          payload.test_language, payload.model_name, payload.mcp_server⟩ env = .error e) :
    generate_tests payload env = .httpError 500 (pyErrStr e) ∧
      ∀ r, generate_tests payload env ≠ .ok r := by
  constructor
  · unfold generate_tests
    rw [h]
  · intro r hcon
    unfold generate_tests at hcon
    rw [h] at hcon
    exact absurd hcon (by simp)

/-- Witness for C8: a `grpc` transport kind makes the workflow raise and the
endpoint answer 500 with the propagated message. -/
theorem c8_api_maps_exception_to_500_witness :
    run_workflow_sync
        ⟨"x".toList, orNone none, orNone none, "ts".toList, "m".toList,
          "playwright-test".toList⟩
        ⟨some [("playwright-test".toList, [("type".toList, JValue.str "grpc".toList)])],
          ⟨2026, 10, 12, 3, 4, 5, 67⟩, .ok (), .ok "p".toList, .ok "g".toList,
          .ok (), .ok "h".toList⟩ =
      .error (.valueError "Unsupported MCP server type: grpc".toList) ∧
      generate_tests
          ⟨"x".toList, none, none, "ts".toList, "m".toList, "playwright-test".toList⟩
          ⟨some [("playwright-test".toList, [("type".toList, JValue.str "grpc".toList)])],
            ⟨2026, 10, 12, 3, 4, 5, 67⟩, .ok (), .ok "p".toList, .ok "g".toList,
            .ok (), .ok "h".toList⟩ =
        .httpError 500 (pyErrStr (.valueError "Unsupported MCP server type: grpc".toList)) := by
  have h : run_workflow_sync
      ⟨"x".toList, orNone none, orNone none, "ts".toList, "m".toList,
        "playwright-test".toList⟩
      ⟨some [("playwright-test".toList, [("type".toList, JValue.str "grpc".toList)])],
        ⟨2026, 10, 12, 3, 4, 5, 67⟩, .ok (), .ok "p".toList, .ok "g".toList,
        .ok (), .ok "h".toList⟩ =
      .error (.valueError "Unsupported MCP server type: grpc".toList) := by rfl
  exact ⟨h, (c8_api_maps_exception_to_500 _ _ _ h).1⟩

/-- **C1**: when the heal-phase final response strips to the no-change
sentinel (case-insensitively), or strips to a non-sentinel text whose
fenced-block extraction is empty, the workflow returns the generate-phase
code with `healed = false` and the test file keeps the generate-phase
content. -/
theorem c1_heal_noop_paths (a : WArgs) (file : Option (List (List Char × JDict)))
    (now : Timestamp) (p g r : List Char)
    (hnorm : ∃ n, normalize_mcp_config (load_mcp_server_config file a.mcp_server) = .ok n)
    (hgen : extract_fenced_block g ≠ [])
    (hr : pyUpper (pyStrip r) = "NO_CHANGES".toList ∨
      extract_fenced_block (pyStrip r) = []) :
    ∃ tr res, run_workflow a (okEnv file now p g r) = (tr, .ok res) ∧
      res.test_code = extract_fenced_block g ∧ res.healed = false ∧
      finalWrite tr res.test_path = some (extract_fenced_block g ++ ['\n']) := by
  obtain ⟨n, hn⟩ := hnorm
  by_cases hs : pyUpper (pyStrip r) = "NO_CHANGES".toList
  · simp only [run_workflow, okEnv, hn]
    rw [if_neg hgen, if_neg (not_not_intro hs)]
    refine ⟨_, _, rfl, rfl, rfl, ?_⟩
    simp [finalWrite]
  · cases hr with
    | inl h => exact absurd h hs
    | inr hx =>
      simp only [run_workflow, okEnv, hn]
      rw [if_neg hgen, if_pos hs, hx,
        if_neg (show ¬(([] : List Char) ≠ []) from not_not_intro rfl)]
      refine ⟨_, _, rfl, rfl, rfl, ?_⟩
      simp [finalWrite]

/-- Witness for C1 on a concrete sentinel-answering heal phase. -/
theorem c1_heal_noop_paths_witness :
    (∃ n, normalize_mcp_config
        (load_mcp_server_config none "playwright-test".toList) = .ok n) ∧
      extract_fenced_block "```ts\nCODE\n```".toList ≠ [] ∧
      (pyUpper (pyStrip " no_changes \n".toList) = "NO_CHANGES".toList ∨
        extract_fenced_block (pyStrip " no_changes \n".toList) = []) ∧
      (∃ tr res, run_workflow
          ⟨"Hello World".toList, none, none, "ts".toList, "m".toList,
            "playwright-test".toList⟩
          (okEnv none ⟨2026, 10, 12, 3, 4, 5, 67⟩ "```md\nPLAN\n```".toList
            "```ts\nCODE\n```".toList " no_changes \n".toList) = (tr, .ok res) ∧
        res.test_code = extract_fenced_block "```ts\nCODE\n```".toList ∧
        res.healed = false ∧
        finalWrite tr res.test_path =
          some (extract_fenced_block "```ts\nCODE\n```".toList ++ ['\n'])) :=
  ⟨⟨_, rfl⟩, by decide, by decide,
    c1_heal_noop_paths _ _ _ _ _ _ ⟨_, rfl⟩ (by decide) (by decide)⟩

/-- **C2**: when the heal-phase final response is not the sentinel and its
fenced-block extraction is non-empty and differs from the generate-phase
code, the workflow returns that string with `healed = true` and the test
file holds the new code plus exactly one trailing newline. -/
theorem c2_heal_rewrites_on_change (a : WArgs) (file : Option (List (List Char × JDict)))
    (now : Timestamp) (p g r : List Char)
    (hnorm : ∃ n, normalize_mcp_config (load_mcp_server_config file a.mcp_server) = .ok n)
    (hgen : extract_fenced_block g ≠ [])
    (hs : pyUpper (pyStrip r) ≠ "NO_CHANGES".toList)
    (hx : extract_fenced_block (pyStrip r) ≠ [])
    (hdiff : extract_fenced_block (pyStrip r) ≠ extract_fenced_block g) :
    ∃ tr res, run_workflow a (okEnv file now p g r) = (tr, .ok res) ∧
      res.healed = true ∧ res.test_code = extract_fenced_block (pyStrip r) ∧
      finalWrite tr res.test_path =
        some (extract_fenced_block (pyStrip r) ++ ['\n']) := by
  obtain ⟨n, hn⟩ := hnorm
  simp only [run_workflow, okEnv, hn]
  rw [if_neg hgen, if_pos hs, if_pos hx]
  refine ⟨_, _, rfl, ?_, rfl, ?_⟩
  · exact decide_eq_true hdiff
  · simp [finalWrite]

/-- Witness for C2 on a concrete revised fenced block. -/
theorem c2_heal_rewrites_on_change_witness :
    (∃ n, normalize_mcp_config
        (load_mcp_server_config none "playwright-test".toList) = .ok n) ∧
      (∃ tr res, run_workflow
          ⟨"Hello World".toList, none, none, "ts".toList, "m".toList,
            "playwright-test".toList⟩
          (okEnv none ⟨2026, 10, 12, 3, 4, 5, 67⟩ "```md\nPLAN\n```".toList
            "```ts\nCODE\n```".toList "```ts\nNEW CODE\n```".toList) = (tr, .ok res) ∧
        res.healed = true ∧
        res.test_code = extract_fenced_block (pyStrip "```ts\nNEW CODE\n```".toList) ∧
        finalWrite tr res.test_path =
          some (extract_fenced_block (pyStrip "```ts\nNEW CODE\n```".toList) ++ ['\n'])) :=
  ⟨⟨_, rfl⟩,
    c2_heal_rewrites_on_change _ _ _ _ _ _ ⟨_, rfl⟩ (by decide) (by decide) (by decide)
      (by decide)⟩

/-- **C3**: when the heal-phase final response is not the sentinel and its
fenced-block extraction is non-empty but textually identical to the
generate-phase code, the workflow returns `healed = false`. -/
theorem c3_heal_identical_block_not_healed (a : WArgs)
    (file : Option (List (List Char × JDict))) (now : Timestamp) (p g r : List Char)
    (hnorm : ∃ n, normalize_mcp_config (load_mcp_server_config file a.mcp_server) = .ok n)
    (hgen : extract_fenced_block g ≠ [])
    (hs : pyUpper (pyStrip r) ≠ "NO_CHANGES".toList)
    (hx : extract_fenced_block (pyStrip r) ≠ [])
    (heq : extract_fenced_block (pyStrip r) = extract_fenced_block g) :
    ∃ tr res, run_workflow a (okEnv file now p g r) = (tr, .ok res) ∧
      res.healed = false ∧ res.test_code = extract_fenced_block g := by
  obtain ⟨n, hn⟩ := hnorm
  simp only [run_workflow, okEnv, hn]
  rw [if_neg hgen, if_pos hs, if_pos hx]
  refine ⟨_, _, rfl, ?_, heq⟩
  simp [heq]

/-- Witness for C3 on a concrete heal response repeating the generated code. -/
theorem c3_heal_identical_block_not_healed_witness :
    (∃ n, normalize_mcp_config
        (load_mcp_server_config none "playwright-test".toList) = .ok n) ∧
      (∃ tr res, run_workflow
          ⟨"Hello World".toList, none, none, "ts".toList, "m".toList,
            "playwright-test".toList⟩
          (okEnv none ⟨2026, 10, 12, 3, 4, 5, 67⟩ "```md\nPLAN\n```".toList
            "```ts\nCODE\n```".toList "```js\nCODE\n```".toList) = (tr, .ok res) ∧
        res.healed = false ∧
        res.test_code = extract_fenced_block "```ts\nCODE\n```".toList) :=
  ⟨⟨_, rfl⟩,
    c3_heal_identical_block_not_healed _ _ _ _ _ _ ⟨_, rfl⟩ (by decide) (by decide)
      (by decide) (by decide)⟩

/-- **C9**: on every successful completion of `run_workflow`, the content
persisted at the returned test path is the returned test code plus exactly
one trailing newline — the heal phase rewrites the file whenever it
extracts a non-empty block, identical to the prior code or not. -/
theorem c9_persisted_test_matches_result (a : WArgs) (env : Env) (tr : List Event)
    (res : WResult) (h : run_workflow a env = (tr, .ok res)) :
    finalWrite tr res.test_path = some (res.test_code ++ ['\n']) := by
  rcases env with ⟨file, now, gt1, pr, gr, gt2, hr⟩
  rcases gt1 with e1 | u1 <;> rcases pr with e2 | pc <;> rcases gr with e3 | gc <;>
    rcases gt2 with e4 | u2 <;> rcases hr with e5 | rc
  all_goals simp only [run_workflow] at h
  iterate 6 (all_goals try (split at h))
  all_goals rw [Prod.mk.injEq] at h
  all_goals obtain ⟨h1, h2⟩ := h
  all_goals
    first
      | (exact Except.noConfusion h2)
      | (injection h2 with h3
         subst h3
         subst h1
         simp [finalWrite])

/-- Witness for C9 on a concrete successful run. -/
theorem c9_persisted_test_matches_result_witness :
    ∃ tr res, run_workflow
        ⟨"Hello World".toList, none, none, "ts".toList, "m".toList,
          "playwright-test".toList⟩
        (okEnv none ⟨2026, 10, 12, 3, 4, 5, 67⟩ "```md\nPLAN\n```".toList
          "```ts\nCODE\n```".toList "```ts\nNEW CODE\n```".toList) = (tr, .ok res) ∧
      finalWrite tr res.test_path = some (res.test_code ++ ['\n']) := by
  have h : run_workflow
      ⟨"Hello World".toList, none, none, "ts".toList, "m".toList,
        "playwright-test".toList⟩
      (okEnv none ⟨2026, 10, 12, 3, 4, 5, 67⟩ "```md\nPLAN\n```".toList
        "```ts\nCODE\n```".toList "```ts\nNEW CODE\n```".toList) =
      ((run_workflow
        ⟨"Hello World".toList, none, none, "ts".toList, "m".toList,
          "playwright-test".toList⟩
        (okEnv none ⟨2026, 10, 12, 3, 4, 5, 67⟩ "```md\nPLAN\n```".toList
          "```ts\nCODE\n```".toList "```ts\nNEW CODE\n```".toList)).1,
        .ok ⟨"specs/hello-world-20261012-030405-000067-plan.md".toList, "PLAN".toList,
          "tests/hello-world-20261012-030405-000067.spec.ts".toList,
          "NEW CODE".toList, true⟩) := by decide
  exact ⟨_, _, h, c9_persisted_test_matches_result _ _ _ _ h⟩

/-- **C4** (counterexample): with the request `" x "`, a plan-phase final
message whose extraction is empty, and an otherwise successful run, the
fallback plan text does not contain the original request text `" x "`
verbatim — `run_workflow` strips the request first, so the fallback embeds
the trimmed request only. -/
theorem c4_counterexample_plan_fallback_strips_request :
    extract_fenced_block ("".toList) = [] ∧
      ∃ tr res, run_workflow
          ⟨" x ".toList, none, none, "ts".toList, "m".toList, "playwright-test".toList⟩
          (okEnv none ⟨2026, 10, 12, 3, 4, 5, 67⟩ "".toList "```ts\nCODE\n```".toList
            "NO_CHANGES".toList) = (tr, .ok res) ∧
        res.plan_text = "# Plan\n\nRequest:\nx\n".toList ∧
        ¬ " x ".toList <:+: res.plan_text := by
  refine ⟨rfl, ?_⟩
  have h : run_workflow
      ⟨" x ".toList, none, none, "ts".toList, "m".toList, "playwright-test".toList⟩
      (okEnv none ⟨2026, 10, 12, 3, 4, 5, 67⟩ "".toList "```ts\nCODE\n```".toList
        "NO_CHANGES".toList) =
      ((run_workflow
        ⟨" x ".toList, none, none, "ts".toList, "m".toList, "playwright-test".toList⟩
        (okEnv none ⟨2026, 10, 12, 3, 4, 5, 67⟩ "".toList "```ts\nCODE\n```".toList
          "NO_CHANGES".toList)).1,
        .ok ⟨"specs/x-20261012-030405-000067-plan.md".toList, "# Plan\n\nRequest:\nx\n".toList,
          "tests/x-20261012-030405-000067.spec.ts".toList, "CODE".toList, false⟩) := by
    decide
  refine ⟨_, _, h, rfl, ?_⟩
  decide

/-- **C4** (amended): in a run whose tool listing and model calls succeed,
(1) if the generate-phase extraction is empty, `run_workflow` raises
`ValueError "No test code returned by generator."` and writes no file other
than the plan file; (2) if the generate-phase extraction is non-empty and
the plan-phase extraction is empty, the run does not fail for that reason
and the plan text is the fallback `"# Plan\n\nRequest:\n"` header followed
by the trimmed request and a newline — so it begins with the fixed header
and contains the trimmed request text verbatim. -/
theorem c4_amended_extraction_fallbacks (a : WArgs)
    (file : Option (List (List Char × JDict))) (now : Timestamp) (p g r : List Char)
    (hnorm : ∃ n, normalize_mcp_config (load_mcp_server_config file a.mcp_server) = .ok n) :
    (extract_fenced_block g = [] →
      ∃ tr, run_workflow a (okEnv file now p g r) =
          (tr, .error (.valueError "No test code returned by generator.".toList)) ∧
        ∀ q c, Event.writeFile q c ∈ tr →
          q = plan_output_path (build_request_id (pyStrip a.spec) now)) ∧
    (extract_fenced_block g ≠ [] → extract_fenced_block p = [] →
      ∃ tr res, run_workflow a (okEnv file now p g r) = (tr, .ok res) ∧
        res.plan_text = "# Plan\n\nRequest:\n".toList ++ pyStrip a.spec ++ ['\n'] ∧
        "# Plan".toList <+: res.plan_text ∧
        ∃ pre post, res.plan_text = pre ++ pyStrip a.spec ++ post) := by
  obtain ⟨n, hn⟩ := hnorm
  constructor
  · intro hgen
    simp only [run_workflow, okEnv, hn]
    rw [if_pos hgen]
    refine ⟨_, rfl, ?_⟩
    intro q c hmem
    simp at hmem
    exact hmem.1
  · intro hgen hplan
    simp only [run_workflow, okEnv, hn]
    rw [if_pos hplan, if_neg hgen]
    have hpre : "# Plan\n\nRequest:\n".toList ++ pyStrip a.spec ++ ['\n'] =
        "# Plan".toList ++ ("\n\nRequest:\n".toList ++ pyStrip a.spec ++ ['\n']) := by
      simp
    split <;> (try split)
    all_goals
      (refine ⟨_, _, rfl, ?_, ?_, ?_⟩ <;>
        first
          | rfl
          | (dsimp only
             rw [hpre]
             exact List.prefix_append _ _)
          | (exact ⟨"# Plan\n\nRequest:\n".toList, ['\n'], rfl⟩))

/-- Witness for the amended C4 at concrete inputs exercising both parts. -/
theorem c4_amended_extraction_fallbacks_witness :
    ((extract_fenced_block "".toList = [] →
      ∃ tr, run_workflow
          ⟨"Hello World".toList, none, none, "ts".toList, "m".toList,
            "playwright-test".toList⟩
          (okEnv none ⟨2026, 10, 12, 3, 4, 5, 67⟩ "plan".toList "".toList
            "NO_CHANGES".toList) =
          (tr, .error (.valueError "No test code returned by generator.".toList)) ∧
        ∀ q c, Event.writeFile q c ∈ tr →
          q = plan_output_path
            (build_request_id (pyStrip "Hello World".toList) ⟨2026, 10, 12, 3, 4, 5, 67⟩)) ∧
      (extract_fenced_block "".toList ≠ [] → extract_fenced_block "plan".toList = [] →
        ∃ tr res, run_workflow
            ⟨"Hello World".toList, none, none, "ts".toList, "m".toList,
              "playwright-test".toList⟩
            (okEnv none ⟨2026, 10, 12, 3, 4, 5, 67⟩ "plan".toList "".toList
              "NO_CHANGES".toList) = (tr, .ok res) ∧
          res.plan_text =
            "# Plan\n\nRequest:\n".toList ++ pyStrip "Hello World".toList ++ ['\n'] ∧
          "# Plan".toList <+: res.plan_text ∧
          ∃ pre post, res.plan_text = pre ++ pyStrip "Hello World".toList ++ post)) ∧
    ((extract_fenced_block "```ts\nCODE\n```".toList = [] →
      ∃ tr, run_workflow
          ⟨"Hello World".toList, none, none, "ts".toList, "m".toList,
            "playwright-test".toList⟩
          (okEnv none ⟨2026, 10, 12, 3, 4, 5, 67⟩ "".toList "```ts\nCODE\n```".toList
            "NO_CHANGES".toList) =
          (tr, .error (.valueError "No test code returned by generator.".toList)) ∧
        ∀ q c, Event.writeFile q c ∈ tr →
          q = plan_output_path
            (build_request_id (pyStrip "Hello World".toList) ⟨2026, 10, 12, 3, 4, 5, 67⟩)) ∧
      (extract_fenced_block "```ts\nCODE\n```".toList ≠ [] →
        extract_fenced_block "".toList = [] →
        ∃ tr res, run_workflow
            ⟨"Hello World".toList, none, none, "ts".toList, "m".toList,
              "playwright-test".toList⟩
            (okEnv none ⟨2026, 10, 12, 3, 4, 5, 67⟩ "".toList "```ts\nCODE\n```".toList
              "NO_CHANGES".toList) = (tr, .ok res) ∧
          res.plan_text =
            "# Plan\n\nRequest:\n".toList ++ pyStrip "Hello World".toList ++ ['\n'] ∧
          "# Plan".toList <+: res.plan_text ∧
          ∃ pre post, res.plan_text = pre ++ pyStrip "Hello World".toList ++ post)) :=
  ⟨c4_amended_extraction_fallbacks _ _ _ _ _ _ ⟨_, rfl⟩,
    c4_amended_extraction_fallbacks _ _ _ _ _ _ ⟨_, rfl⟩⟩

theorem take_two_shape (cs : List Char) (h : cs.take 2 = [tick, tick]) :
    ∃ cs', cs = tick :: tick :: cs' := by
  match cs with
  | [] => simp at h
  | [a] => simp at h
  | a :: b :: cs' =>
    simp [List.take] at h
    exact ⟨cs', by rw [h.1, h.2]⟩

theorem take_three_shape (m : List Char) (h : m.take 3 = [tick, tick, tick]) :
    ∃ m', m = tick :: tick :: tick :: m' := by
  match m with
  | [] => simp at h
  | [a] => simp at h
  | [a, b] => simp at h
  | a :: b :: c :: m' =>
    simp [List.take] at h
    exact ⟨m', by rw [h.1, h.2.1, h.2.2]⟩

theorem splitAtFence_spec (l : List Char) :
    ∀ pre post, splitAtFence l = some (pre, post) →
      l = pre ++ tick :: tick :: tick :: post := by
  induction l with
  | nil => intro pre post h; simp [splitAtFence] at h
  | cons c cs ih =>
    intro pre post h
    simp only [splitAtFence] at h
    split at h
    · rename_i hc
      injection h with h'
      injection h' with hp1 hp2
      subst hp1
      subst hp2
      obtain ⟨cs', hcs⟩ := take_two_shape cs hc.2
      simp [hcs, hc.1]
    · rcases hm : splitAtFence cs with _ | ⟨pre', post'⟩
      · rw [hm] at h
        simp at h
      · rw [hm] at h
        injection h with h'
        injection h' with hp1 hp2
        subst hp1
        subst hp2
        simp [ih pre' post' hm]

theorem splitAtFence_append (l ext : List Char) :
    ∀ pre post, splitAtFence l = some (pre, post) →
      splitAtFence (l ++ ext) = some (pre, post ++ ext) := by
  induction l with
  | nil => intro pre post h; simp [splitAtFence] at h
  | cons c cs ih =>
    intro pre post h
    simp only [splitAtFence] at h
    split at h
    · rename_i hc
      injection h with h'
      injection h' with hp1 hp2
      subst hp1
      subst hp2
      obtain ⟨cs', hcs⟩ := take_two_shape cs hc.2
      subst hcs
      obtain ⟨hc1, -⟩ := hc
      subst hc1
      rfl
    · rename_i hc
      rcases hm : splitAtFence cs with _ | ⟨pre', post'⟩
      · rw [hm] at h
        simp at h
      · rw [hm] at h
        injection h with h'
        injection h' with hp1 hp2
        subst hp1
        subst hp2
        have hlen : 3 ≤ cs.length := by
          rw [splitAtFence_spec cs pre' post' hm]
          simp
          omega
        obtain ⟨a, b, rest, hshape⟩ :
            ∃ a b rest, cs = a :: b :: rest := by
          match cs, hlen with
          | a :: b :: rest, _ => exact ⟨a, b, rest, rfl⟩
        simp only [List.cons_append, splitAtFence]
        split
        · rename_i hcc
          refine absurd ?_ hc
          refine ⟨hcc.1, ?_⟩
          have h2 := hcc.2
          subst hshape
          simpa using h2
        · rw [show splitAtFence (cs.append ext) = some (pre', post' ++ ext) from
            ih pre' post' hm]

theorem fenceMatchAt_append (m ext r : List Char)
    (h : fenceMatchAt m = some r) : fenceMatchAt (m ++ ext) = some r := by
  simp only [fenceMatchAt] at h
  split at h
  · rename_i ht
    split at h
    · rename_i c0 body heq
      split at h
      · rename_i hc0
        subst hc0
        obtain ⟨⟨pre, post⟩, hsf, hr⟩ := Option.map_eq_some'.mp h
        obtain ⟨m', hm⟩ := take_three_shape m ht
        subst hm
        have heq' : List.dropWhile isTagChar m' = '\n' :: body := heq
        have hde : List.dropWhile isTagChar (m' ++ ext) = '\n' :: (body ++ ext) := by
          rw [List.dropWhile_append, heq']
          simp
        have hcond : List.take 3 ((tick :: tick :: tick :: m') ++ ext) =
            [tick, tick, tick] := rfl
        simp only [fenceMatchAt]
        rw [if_pos hcond]
        have hdr : List.drop 3 ((tick :: tick :: tick :: m') ++ ext) = m' ++ ext := rfl
        rw [hdr, hde]
        show (if ('\n' : Char) = '\n' then
            (splitAtFence (body ++ ext)).map (fun x => x.1) else none) = some r
        rw [if_pos rfl, splitAtFence_append body ext pre post hsf]
        simpa using hr
      · exact absurd h (by simp)
    · exact absurd h (by simp)
  · exact absurd h (by simp)

theorem fenceMatchAt_nil : fenceMatchAt [] = none := rfl

theorem fenceSearch_none_all (l : List Char) (h : fenceSearch l = none) :
    ∀ i, fenceMatchAt (l.drop i) = none := by
  induction l with
  | nil => intro i; simp [List.drop_nil, fenceMatchAt_nil]
  | cons c cs ih =>
    have hsplit : fenceMatchAt (c :: cs) = none ∧ fenceSearch cs = none := by
      rcases hm : fenceMatchAt (c :: cs) with _ | r
      · refine ⟨rfl, ?_⟩
        simp only [fenceSearch, hm] at h
        exact h
      · simp only [fenceSearch, hm] at h
        exact absurd h (by simp)
    intro i
    match i with
    | 0 => exact hsplit.1
    | i + 1 => exact ih hsplit.2 i

theorem fenceSearch_some_exists (l : List Char) (r : List Char)
    (h : fenceSearch l = some r) :
    ∃ i r', fenceMatchAt (l.drop i) = some r' := by
  induction l with
  | nil => simp [fenceSearch] at h
  | cons c cs ih =>
    rcases hm : fenceMatchAt (c :: cs) with _ | r0
    · simp only [fenceSearch, hm] at h
      obtain ⟨i, r', hi⟩ := ih h
      exact ⟨i + 1, r', hi⟩
    · exact ⟨0, r0, hm⟩

theorem fenceSearch_sub_none (l m w1 w2 : List Char) (hl : fenceSearch l = none)
    (hdecomp : l = w1 ++ m ++ w2) : fenceSearch m = none := by
  rcases hms : fenceSearch m with _ | r
  · rfl
  · exfalso
    obtain ⟨i, r', hi⟩ := fenceSearch_some_exists m r hms
    have hle : i ≤ m.length := by
      by_contra hgt
      rw [List.drop_eq_nil_of_le (by omega)] at hi
      simp [fenceMatchAt_nil] at hi
    have key : l.drop (w1.length + i) = m.drop i ++ w2 := by
      have hsw : l = (w1 ++ m.take i) ++ (m.drop i ++ w2) := by
        rw [hdecomp]
        conv_lhs => rw [← List.take_append_drop i m]
        simp [List.append_assoc]
        rw [← List.append_assoc, List.take_append_drop]
      rw [hsw, List.drop_left']
      simp [List.length_take, Nat.min_eq_left hle]
    have hnone := fenceSearch_none_all l hl (w1.length + i)
    rw [key, fenceMatchAt_append (m.drop i) w2 r' hi] at hnone
    exact Option.noConfusion hnone

theorem pyStrip_decomp (l : List Char) : ∃ w1 w2, l = w1 ++ pyStrip l ++ w2 := by
  obtain ⟨t, ht⟩ := List.rdropWhile_prefix pyIsSpace (l.dropWhile pyIsSpace)
  refine ⟨l.takeWhile pyIsSpace, t, ?_⟩
  conv_lhs => rw [← List.takeWhile_append_dropWhile pyIsSpace l, ← ht]
  simp [pyStrip, List.rdropWhile, List.append_assoc]

theorem pyStrip_idem (l : List Char) : pyStrip (pyStrip l) = pyStrip l := by
  have hps : pyStrip l = List.rdropWhile pyIsSpace (l.dropWhile pyIsSpace) := rfl
  have h1 : (pyStrip l).dropWhile pyIsSpace = pyStrip l := by
    rcases hm : pyStrip l with _ | ⟨c, cs⟩
    · simp
    · obtain ⟨t, ht⟩ := List.rdropWhile_prefix pyIsSpace (l.dropWhile pyIsSpace)
      rw [← hps, hm] at ht
      have hidem := List.dropWhile_idempotent (l := l) (p := pyIsSpace)
      rw [← ht] at hidem
      have hcfalse : ¬pyIsSpace c := by
        intro hcp
        rw [List.cons_append, List.dropWhile_cons_of_pos hcp] at hidem
        have hlen := congrArg List.length hidem
        have hle := (List.dropWhile_suffix (l := cs ++ t) pyIsSpace).length_le
        simp [List.length_append] at hlen hle
        omega
      exact List.dropWhile_cons_of_neg hcfalse
  have h2 : List.rdropWhile pyIsSpace (pyStrip l) = pyStrip l := by
    apply List.rdropWhile_eq_self_iff.mpr
    intro hl
    exact List.rdropWhile_last_not pyIsSpace (List.dropWhile pyIsSpace l) hl
  show List.rdropWhile pyIsSpace ((pyStrip l).dropWhile pyIsSpace) = pyStrip l
  rw [h1, h2]

/-- **C6**: on text with no fenced block, extraction returns the
whitespace-trimmed text, and extraction is idempotent there. -/
theorem c6_extract_idempotent_on_unfenced (x : List Char)
    (h : fenceSearch x = none) :
    extract_fenced_block x = pyStrip x ∧
      extract_fenced_block (extract_fenced_block x) = extract_fenced_block x := by
  have h1 : extract_fenced_block x = pyStrip x := by
    simp [extract_fenced_block, h]
  refine ⟨h1, ?_⟩
  obtain ⟨w1, w2, hd⟩ := pyStrip_decomp x
  have h2 : fenceSearch (pyStrip x) = none := fenceSearch_sub_none x (pyStrip x) w1 w2 h hd
  rw [h1]
  simp [extract_fenced_block, h2, pyStrip_idem]

/-- Witness for C6 on a concrete unfenced string. -/
theorem c6_extract_idempotent_on_unfenced_witness :
    fenceSearch "  no fences here  ".toList = none ∧
      (extract_fenced_block "  no fences here  ".toList =
          pyStrip "  no fences here  ".toList ∧
        extract_fenced_block (extract_fenced_block "  no fences here  ".toList) =
          extract_fenced_block "  no fences here  ".toList) :=
  ⟨by decide, c6_extract_idempotent_on_unfenced _ (by decide)⟩

theorem digitVal_digitChar (d : Nat) (h : d < 10) : digitVal (digitChar d) = d := by
  interval_cases d <;> rfl

theorem digitChar_digit_range (d : Nat) (h : d < 10) :
    48 ≤ (digitChar d).toNat ∧ (digitChar d).toNat ≤ 57 := by
  interval_cases d <;> exact ⟨by decide, by decide⟩

theorem decodeRev_natDigitsRevFuel :
    ∀ fuel n, n ≤ fuel → decodeRev (natDigitsRevFuel fuel n) = n := by
  intro fuel
  induction fuel with
  | zero =>
    intro n h
    have : n = 0 := by omega
    subst this
    rfl
  | succ fuel ih =>
    intro n h
    by_cases h0 : n = 0
    · subst h0
      rfl
    · simp only [natDigitsRevFuel, if_neg h0, decodeRev]
      have hdiv : n / 10 < n := Nat.div_lt_self (by omega) (by omega)
      rw [digitVal_digitChar _ (Nat.mod_lt _ (by omega)), ih (n / 10) (by omega)]
      omega

theorem mem_natDigitsRevFuel_digit :
    ∀ fuel n c, c ∈ natDigitsRevFuel fuel n → 48 ≤ c.toNat ∧ c.toNat ≤ 57 := by
  intro fuel
  induction fuel with
  | zero => intro n c hc; simp [natDigitsRevFuel] at hc
  | succ fuel ih =>
    intro n c hc
    by_cases h0 : n = 0
    · simp [natDigitsRevFuel, h0] at hc
    · simp only [natDigitsRevFuel, if_neg h0, List.mem_cons] at hc
      rcases hc with hc | hc
      · subst hc
        exact digitChar_digit_range _ (Nat.mod_lt _ (by omega))
      · exact ih _ _ hc

theorem decodeRev_append (xs ys : List Char) :
    decodeRev (xs ++ ys) = decodeRev xs + 10 ^ xs.length * decodeRev ys := by
  induction xs with
  | nil => simp [decodeRev]
  | cons c xs ih =>
    have ih' : decodeRev (xs.append ys) =
        decodeRev xs + 10 ^ xs.length * decodeRev ys := ih
    simp only [List.cons_append, decodeRev, ih, ih', List.length_cons]
    ring

theorem decodeRev_replicate_zero (k : Nat) :
    decodeRev (List.replicate k '0') = 0 := by
  induction k with
  | zero => rfl
  | succ k ih => simp [List.replicate, decodeRev, ih]; rfl

theorem decode_natToChars (n : Nat) : decodeRev (natToChars n).reverse = n := by
  by_cases h0 : n = 0
  · subst h0
    rfl
  · simp only [natToChars, if_neg h0, List.reverse_reverse, natDigitsRev]
    exact decodeRev_natDigitsRevFuel n n (Nat.le_refl n)

theorem decode_padNum (w n : Nat) : decode (padNum w n) = n := by
  unfold decode padNum
  rw [List.reverse_append, List.reverse_replicate, decodeRev_append,
    decodeRev_replicate_zero, decode_natToChars]
  simp

theorem padNum_inj (w a b : Nat) (h : padNum w a = padNum w b) : a = b := by
  rw [← decode_padNum w a, ← decode_padNum w b, h]

theorem length_natDigitsRevFuel_le :
    ∀ fuel n w, n < 10 ^ w → n ≤ fuel → (natDigitsRevFuel fuel n).length ≤ w := by
  intro fuel
  induction fuel with
  | zero => intro n w _ _; simp [natDigitsRevFuel]
  | succ fuel ih =>
    intro n w hw h
    by_cases h0 : n = 0
    · simp [natDigitsRevFuel, h0]
    · match w with
      | 0 => omega
      | w' + 1 =>
        simp only [natDigitsRevFuel, if_neg h0, List.length_cons]
        have hdiv10 : n / 10 < 10 ^ w' := by
          apply Nat.div_lt_of_lt_mul
          rw [pow_succ] at hw
          omega
        have hdivle : n / 10 ≤ fuel := by
          have := Nat.div_lt_self (show 0 < n by omega) (show 1 < 10 by omega)
          omega
        have := ih (n / 10) w' hdiv10 hdivle
        omega

theorem length_natToChars_le (n w : Nat) (h : n < 10 ^ w) (hw : 0 < w) :
    (natToChars n).length ≤ w := by
  by_cases h0 : n = 0
  · subst h0
    simpa [natToChars] using hw
  · simp only [natToChars, if_neg h0, List.length_reverse, natDigitsRev]
    exact length_natDigitsRevFuel_le n n w h (Nat.le_refl n)

theorem length_padNum (w n : Nat) (h : n < 10 ^ w) (hw : 0 < w) :
    (padNum w n).length = w := by
  have hle := length_natToChars_le n w h hw
  simp only [padNum, List.length_append, List.length_replicate]
  omega

theorem mem_padNum_digit (w n : Nat) (c : Char) (hc : c ∈ padNum w n) :
    48 ≤ c.toNat ∧ c.toNat ≤ 57 := by
  simp only [padNum, List.mem_append, List.mem_replicate] at hc
  rcases hc with ⟨-, hc⟩ | hc
  · subst hc
    exact ⟨by decide, by decide⟩
  · by_cases h0 : n = 0
    · subst h0
      simp [natToChars] at hc
      subst hc
      exact ⟨by decide, by decide⟩
    · simp only [natToChars, if_neg h0, List.mem_reverse, natDigitsRev] at hc
      exact mem_natDigitsRevFuel_digit n n c hc

theorem strftimeId_inj (t1 t2 : Timestamp) (h1 : t1.Valid) (h2 : t2.Valid)
    (heq : strftimeId t1 = strftimeId t2) : t1 = t2 := by
  obtain ⟨hy1, hmo1, hd1, hh1, hmi1, hs1, hus1⟩ := h1
  obtain ⟨hy2, hmo2, hd2, hh2, hmi2, hs2, hus2⟩ := h2
  unfold strftimeId at heq
  simp only [List.append_assoc] at heq
  obtain ⟨ey, heq⟩ := List.append_inj heq (by
    rw [length_padNum 4 t1.year (by exact_mod_cast hy1) (by omega),
      length_padNum 4 t2.year (by exact_mod_cast hy2) (by omega)])
  obtain ⟨emo, heq⟩ := List.append_inj heq (by
    rw [length_padNum 2 t1.month (by exact_mod_cast hmo1) (by omega),
      length_padNum 2 t2.month (by exact_mod_cast hmo2) (by omega)])
  obtain ⟨ed, heq⟩ := List.append_inj heq (by
    rw [length_padNum 2 t1.day (by exact_mod_cast hd1) (by omega),
      length_padNum 2 t2.day (by exact_mod_cast hd2) (by omega)])
  injection heq with hdash1 heq
  obtain ⟨eh, heq⟩ := List.append_inj heq (by
    rw [length_padNum 2 t1.hour (by exact_mod_cast hh1) (by omega),
      length_padNum 2 t2.hour (by exact_mod_cast hh2) (by omega)])
  obtain ⟨emi, heq⟩ := List.append_inj heq (by
    rw [length_padNum 2 t1.minute (by exact_mod_cast hmi1) (by omega),
      length_padNum 2 t2.minute (by exact_mod_cast hmi2) (by omega)])
  obtain ⟨es, heq⟩ := List.append_inj heq (by
    rw [length_padNum 2 t1.second (by exact_mod_cast hs1) (by omega),
      length_padNum 2 t2.second (by exact_mod_cast hs2) (by omega)])
  injection heq with hdash2 eus
  rcases t1 with ⟨y1, mo1, d1, dh1, mi1, s1, us1⟩
  rcases t2 with ⟨y2, mo2, d2, dh2, mi2, s2, us2⟩
  simp only at ey emo ed eh emi es eus
  simp only [Timestamp.mk.injEq]
  exact ⟨padNum_inj _ _ _ ey, padNum_inj _ _ _ emo, padNum_inj _ _ _ ed,
    padNum_inj _ _ _ eh, padNum_inj _ _ _ emi, padNum_inj _ _ _ es,
    padNum_inj _ _ _ eus⟩

theorem mem_strftimeId (t : Timestamp) (c : Char) (hc : c ∈ strftimeId t) :
    (48 ≤ c.toNat ∧ c.toNat ≤ 57) ∨ c = '-' := by
  unfold strftimeId at hc
  simp only [List.mem_append, List.mem_cons, or_assoc] at hc
  rcases hc with hc | hc | hc | hc | hc | hc | hc | hc | hc
  all_goals first
    | (exact Or.inl (mem_padNum_digit _ _ _ hc))
    | (exact Or.inr hc)

theorem tokenizeFuel_mem :
    ∀ fuel (l t : List Char), t ∈ tokenizeFuel fuel l →
      ∀ c ∈ t, isAsciiAlnum c ∧ c ∈ l := by
  intro fuel
  induction fuel with
  | zero => intro l t ht; simp [tokenizeFuel] at ht
  | succ fuel ih =>
    intro l t ht c hc
    cases l with
    | nil => simp [tokenizeFuel] at ht
    | cons a as =>
      simp only [tokenizeFuel] at ht
      by_cases ha : isAsciiAlnum a = true
      · rw [if_pos ha] at ht
        simp only [List.mem_cons] at ht
        rcases ht with ht | ht
        · subst ht
          simp only [List.mem_cons] at hc
          rcases hc with hc | hc
          · subst hc
            exact ⟨ha, List.mem_cons_self _ _⟩
          · exact ⟨List.mem_takeWhile_imp hc,
              List.mem_cons_of_mem a ((List.takeWhile_prefix _).sublist.subset hc)⟩
        · obtain ⟨hal, hmem⟩ := ih _ _ ht c hc
          exact ⟨hal,
            List.mem_cons_of_mem a ((List.dropWhile_suffix _).sublist.subset hmem)⟩
      · rw [if_neg ha] at ht
        obtain ⟨hal, hmem⟩ := ih _ _ ht c hc
        exact ⟨hal, List.mem_cons_of_mem a hmem⟩

theorem mem_joinHyphen (ts : List (List Char)) (c : Char) (hc : c ∈ joinHyphen ts) :
    c = '-' ∨ ∃ t ∈ ts, c ∈ t := by
  induction ts with
  | nil => simp [joinHyphen] at hc
  | cons t ts ih =>
    match ts with
    | [] =>
      simp only [joinHyphen] at hc
      exact Or.inr ⟨t, List.mem_cons_self t [], hc⟩
    | t' :: ts' =>
      simp only [joinHyphen, List.mem_append, List.mem_cons] at hc
      rcases hc with hc | hc | hc
      · exact Or.inr ⟨t, List.mem_cons_self _ _, hc⟩
      · exact Or.inl hc
      · rcases ih hc with h | ⟨u, hu, hcu⟩
        · exact Or.inl h
        · exact Or.inr ⟨u, List.mem_cons_of_mem t hu, hcu⟩

theorem pyToLower_alnum_lower (c : Char) (hal : isAsciiAlnum (pyToLower c)) :
    (97 ≤ (pyToLower c).toNat ∧ (pyToLower c).toNat ≤ 122) ∨
      (48 ≤ (pyToLower c).toNat ∧ (pyToLower c).toNat ≤ 57) := by
  unfold pyToLower at hal ⊢
  by_cases h : 65 ≤ c.toNat ∧ c.toNat ≤ 90
  · rw [if_pos h] at hal ⊢
    rw [toNat_ofNat_small (c.toNat + 32) (by omega)]
    omega
  · rw [if_neg h] at hal ⊢
    simp only [isAsciiAlnum, Bool.or_eq_true, decide_eq_true_eq] at hal
    omega

theorem slugify_lower_chars (spec : List Char) (c : Char) (hc : c ∈ slugify spec) :
    (97 ≤ c.toNat ∧ c.toNat ≤ 122) ∨ (48 ≤ c.toNat ∧ c.toNat ≤ 57) ∨ c = '-' := by
  simp only [slugify] at hc
  split at hc
  · have : ∀ x ∈ "generated-test".toList,
        (97 ≤ x.toNat ∧ x.toNat ≤ 122) ∨ (48 ≤ x.toNat ∧ x.toNat ≤ 57) ∨ x = '-' := by
      decide
    exact this c hc
  · rcases mem_joinHyphen _ _ hc with h | ⟨t, ht, hct⟩
    · exact Or.inr (Or.inr h)
    · have ht' : t ∈ tokenize (spec.map pyToLower) := List.mem_of_mem_take ht
      obtain ⟨hal, hmem⟩ := tokenizeFuel_mem _ _ _ ht' c hct
      obtain ⟨d, -, hd⟩ := List.mem_map.mp hmem
      subst hd
      rcases pyToLower_alnum_lower d hal with h | h
      · exact Or.inl h
      · exact Or.inr (Or.inl h)

/-- **C5**: the derived request identifier is non-empty, made only of
lower-case letters, digits and hyphens; the slug falls back to
`generated-test` exactly when the request has no alphanumeric token and is
otherwise the hyphen-join of the first 8 lower-cased tokens; and distinct
timestamps give distinct identifiers for the same request. -/
theorem c5_request_id_properties (spec : List Char) (t1 t2 : Timestamp)
    (h1 : t1.Valid) (h2 : t2.Valid) (hne : t1 ≠ t2) :
    build_request_id spec t1 ≠ [] ∧
    (∀ c ∈ build_request_id spec t1,
      (97 ≤ c.toNat ∧ c.toNat ≤ 122) ∨ (48 ≤ c.toNat ∧ c.toNat ≤ 57) ∨ c = '-') ∧
    (tokenize (spec.map pyToLower) = [] → slugify spec = "generated-test".toList) ∧
    (tokenize (spec.map pyToLower) ≠ [] →
      slugify spec = joinHyphen ((tokenize (spec.map pyToLower)).take 8)) ∧
    build_request_id spec t1 ≠ build_request_id spec t2 := by
  refine ⟨?_, ?_, ?_, ?_, ?_⟩
  · simp [build_request_id]
  · intro c hc
    simp only [build_request_id, List.mem_append, List.mem_cons] at hc
    rcases hc with hc | hc | hc
    · exact slugify_lower_chars spec c hc
    · exact Or.inr (Or.inr hc)
    · rcases mem_strftimeId t1 c hc with h | h
      · exact Or.inr (Or.inl h)
      · exact Or.inr (Or.inr h)
  · intro h
    simp [slugify, h]
  · intro h
    simp [slugify, h]
  · intro hcon
    apply hne
    have : '-' :: strftimeId t1 = '-' :: strftimeId t2 :=
      List.append_cancel_left hcon
    injection this with hd hts
    exact strftimeId_inj t1 t2 h1 h2 hts

/-- Witness for C5 at a concrete request and two sub-second-distinct
timestamps. -/
theorem c5_request_id_properties_witness :
    Timestamp.Valid ⟨2026, 10, 12, 3, 4, 5, 67⟩ ∧
      Timestamp.Valid ⟨2026, 10, 12, 3, 4, 5, 68⟩ ∧
      (⟨2026, 10, 12, 3, 4, 5, 67⟩ : Timestamp) ≠ ⟨2026, 10, 12, 3, 4, 5, 68⟩ ∧
      (build_request_id "Hello World".toList ⟨2026, 10, 12, 3, 4, 5, 67⟩ ≠ [] ∧
        (∀ c ∈ build_request_id "Hello World".toList ⟨2026, 10, 12, 3, 4, 5, 67⟩,
          (97 ≤ c.toNat ∧ c.toNat ≤ 122) ∨ (48 ≤ c.toNat ∧ c.toNat ≤ 57) ∨ c = '-') ∧
        (tokenize ("Hello World".toList.map pyToLower) = [] →
          slugify "Hello World".toList = "generated-test".toList) ∧
        (tokenize ("Hello World".toList.map pyToLower) ≠ [] →
          slugify "Hello World".toList =
            joinHyphen ((tokenize ("Hello World".toList.map pyToLower)).take 8)) ∧
        build_request_id "Hello World".toList ⟨2026, 10, 12, 3, 4, 5, 67⟩ ≠
          build_request_id "Hello World".toList ⟨2026, 10, 12, 3, 4, 5, 68⟩) :=
  ⟨by decide, by decide, by decide,
    c5_request_id_properties _ _ _ (by decide) (by decide) (by decide)⟩

end AutoTest
